import Mathlib

/-!
Shallow embedding of `scripts/terra_lt2_tv_z1000.py`, a PlantCV workflow that
builds a binary plant mask from a VIS image and transfers it to the paired NIR
image.  The script is Python 2 code: integer `/` is floor division (`Int.fdiv`)
and integer `%` is the nonnegative remainder (`Int.emod`); both are modelled
explicitly below.  Images are modelled as pixel functions together with their
shape, contours as vertex lists, and the OpenCV geometric primitives the script
calls (`cv2.pointPolygonTest`, the pixel region painted by `cv2.drawContours`
with thickness -1) are abstracted as function parameters, so every theorem
about `remove_countors_roi` holds for any semantics of those primitives.
-/

/-- A pixel coordinate.  For contour vertices this is the OpenCV `(x, y)`
order used by `cv2.pointPolygonTest`; for image indexing in
`crop_sides_equally` it is the NumPy `(row, col)` order. -/
abbrev Point := ℤ × ℤ

/-- A single-channel image as a total pixel-value function; the script only
ever reads pixels through NumPy indexing, so out-of-range coordinates are
simply never observed. -/
abbrev Mask := Point → ℕ

/-- An OpenCV contour: the ordered list of integer vertices returned by
`cv2.findContours` (the first vertex is NOT repeated at the end). -/
abbrev Contour := List Point

/-- An OpenCV hierarchy row per contour: `(next, previous, first_child,
parent)`.  `remove_countors_roi` only forwards it to `cv2.drawContours`. -/
abbrev Hierarchy := List (ℤ × ℤ × ℤ × ℤ)

/-- A NumPy array together with its shape, as used for masks in the script:
`h`, `w` mirror `np.shape(mask)[0]` and `np.shape(mask)[1]`. -/
structure PyImg where
  h : ℕ
  w : ℕ
  pix : Point → ℕ

/-- NumPy basic-slice index normalization for an axis of length `n`: a
negative index has `n` added to it, and the result is clamped into
`[0, n]`. -/
def pySliceIdx (i : ℤ) (n : ℕ) : ℕ :=
  (min (max (if i < 0 then i + n else i) 0) n).toNat

/-- The NumPy basic slice `img[r0 : r1, c0 : c1]`: the result has the clamped
extent on each axis and reads pixel `(r, c)` from `(r + start_row,
c + start_col)` of the source. -/
def pySlice2 (img : PyImg) (r0 r1 c0 c1 : ℤ) : PyImg :=
  { h := pySliceIdx r1 img.h - pySliceIdx r0 img.h
    w := pySliceIdx c1 img.w - pySliceIdx c0 img.w
    pix := fun p => img.pix (p.1 + pySliceIdx r0 img.h, p.2 + pySliceIdx c0 img.w) }

/-- Embedding of `crop_sides_equally(mask, nir, device, debug)` (source lines
28-57).  Python 2 semantics: `difference / 2` is floor division and
`difference % 2` is the nonnegative remainder; the source assigns
`x1 = difference_x / 2` in both branches of the parity test, which is kept
verbatim here.  The debug branch only prints or plots an image and does not
affect the returned value. -/
def crop_sides_equally (mask : PyImg) (nir : PyImg) (device : ℕ)
    (debug : Option String) : ℕ × PyImg :=
  let device := device + 1
  let final_y : ℤ := mask.h
  let final_x : ℤ := mask.w
  let difference_x : ℤ := final_x - nir.w
  let difference_y : ℤ := final_y - nir.h
  let x1 : ℤ := if difference_x % 2 = 0 then difference_x.fdiv 2 else difference_x.fdiv 2
  let x2 : ℤ := if difference_x % 2 = 0 then difference_x.fdiv 2 else difference_x.fdiv 2 + 1
  let y1 : ℤ := if difference_y % 2 = 0 then difference_y.fdiv 2 else difference_y.fdiv 2
  let y2 : ℤ := if difference_y % 2 = 0 then difference_y.fdiv 2 else difference_y.fdiv 2 + 1
  let crop_img := pySlice2 mask y1 (final_y - y2) x1 (final_x - x2)
  (device, crop_img)

/-- Embedding of `conv_ratio(y, x, conv_x, conv_y, rat)` (source lines 61-66).
Floating-point arithmetic is modelled over ℚ; every constant involved
(`606.0`, `508.0`, `1.125`, the reference resolutions `2056`, `2454`) is
exactly representable, so the rational values are the mathematically intended
ones. -/
def conv_ratio (y x conv_x conv_y rat : ℚ) : ℚ × ℚ :=
  let prop2 := x / 2056
  let prop1 := y / 2454
  let prop2 := prop2 * (conv_y * rat)
  let prop1 := prop1 * (conv_x * rat)
  (prop2, prop1)

/-- The call `conv_ratio()` from `main` (source line 277): all five parameters
take their declared default values. -/
def conv_ratio_defaults : ℚ × ℚ := conv_ratio 606.0 508.0 1.125 1.125 1

/-- Modelled from the spec: `pcv.resize(img, resize_x, resize_y)` is not part
of this repository (PlantCV is an external collaborator).  Per the spec's
Cross-Modality Mask Mapper step 2, it scales the mask's width and height
independently by the ConversionRatio scale factors; the output pixel extent on
each axis is the scaled extent rounded to the nearest whole pixel. -/
def resizeDims (h w : ℕ) (resize_x resize_y : ℚ) : ℤ × ℤ :=
  (⌊(h : ℚ) * resize_y + 1 / 2⌋, ⌊(w : ℚ) * resize_x + 1 / 2⌋)

/-- The vertices of a contour that `remove_countors_roi` actually submits to
the point-polygon test: the loop runs `for i in range(0, len(contour) - 1)`,
so only the first `len(contour) - 1` vertices are tested. -/
def testedVertices (contour : Contour) : List Point :=
  contour.take (contour.length - 1)

/-- The list `tests` built by `remove_countors_roi` for one contour, with
`pptest` standing for `cv2.pointPolygonTest(contour=roi[0], pt=·,
measureDist=False)`, which returns 1 / 0 / -1 for strictly inside / on the
boundary / outside the ROI contour. -/
def contourTests (pptest : Point → ℤ) (contour : Contour) : List ℤ :=
  (testedVertices contour).map pptest

/-- The suppression condition `all(t == 1 for t in tests)` of
`remove_countors_roi`. -/
def contourFlagged (pptest : Point → ℤ) (contour : Contour) : Bool :=
  (contourTests pptest contour).all (fun t => t == 1)

/-- The effect of `cv2.drawContours(image, contours, n, color=0, thickness=-1,
lineType=8, hierarchy)` on the pixel grid: every pixel of the painted region
becomes 0, every other pixel is untouched.  `region` abstracts the exact pixel
set OpenCV paints for the given contour index and hierarchy. -/
def drawContoursBlack (region : Point → Bool) (img : Mask) : Mask :=
  fun p => if region p then 0 else img p

/-- The `for n, contour in enumerate(contours)` loop of `remove_countors_roi`:
starting from contour index `n`, fill each flagged contour with black in
sequence. -/
def removeLoop (pptest : Point → ℤ) (drawFill : ℕ → Point → Bool) :
    ℕ → List Contour → Mask → Mask
  | _, [], m => m
  | n, c :: cs, m =>
      removeLoop pptest drawFill (n + 1) cs
        (if contourFlagged pptest c then drawContoursBlack (drawFill n) m else m)

/-- Embedding of `remove_countors_roi(mask, contours, hierarchy, roi, device,
debug)` (source lines 70-98).  `pptest` abstracts
`cv2.pointPolygonTest(roi[0], ·, False)` and `drawFill n` abstracts the pixel
region painted by `cv2.drawContours(..., contours, n, 0, -1, 8, hierarchy)`.
The function starts from `np.copy(mask)` (pure copy, the identity in this
functional model), never increments `device`, and its debug branch only
prints/plots. -/
def remove_countors_roi (mask : Mask) (contours : List Contour)
    (hierarchy : Hierarchy) (pptest : Point → ℤ) (drawFill : ℕ → Point → Bool)
    (device : ℕ) (debug : Option String) : ℕ × Mask :=
  let clean_mask := removeLoop pptest drawFill 0 contours mask
  (device, clean_mask)

/-- Whether pixel `p` is blackened by the loop of `remove_countors_roi`
starting at contour index `n`: some remaining contour is flagged and its
painted region covers `p`. -/
def blackenedAt (pptest : Point → ℤ) (drawFill : ℕ → Point → Bool) :
    ℕ → List Contour → Point → Bool
  | _, [], _ => false
  | n, c :: cs, p =>
      (contourFlagged pptest c && drawFill n p) || blackenedAt pptest drawFill (n + 1) cs p

/-- Concrete `cv2.pointPolygonTest` semantics for an axis-aligned rectangular
ROI contour with corners `(x0, y0)` and `(x1, y1)`: 1 strictly inside, 0 on
the boundary, -1 outside.  Used to instantiate the abstract `pptest` at
concrete inputs. -/
def pptRect (x0 y0 x1 y1 : ℤ) (p : Point) : ℤ :=
  if x0 < p.1 ∧ p.1 < x1 ∧ y0 < p.2 ∧ p.2 < y1 then 1
  else if x0 ≤ p.1 ∧ p.1 ≤ x1 ∧ y0 ≤ p.2 ∧ p.2 ≤ y1 then 0
  else -1

/-- The debug coercion in `options()` (source lines 10-24): argparse stores
`None` when `--debug` is absent and the user's string otherwise, and the
function then overwrites any non-`None` value with the string `print`. -/
def optionsDebug : Option String → Option String
  | none => none
  | some _ => some ("print")

/-- Which debug side effect the shared `if debug == "print" ... elif debug ==
"plot"` dispatch of `crop_sides_equally` (lines 52-55) and
`remove_countors_roi` (lines 93-96) selects. -/
inductive DebugEffect
  | printImage
  | plotImage
  | noEffect
  deriving DecidableEq

/-- The debug dispatch itself. -/
def debugEffect (debug : Option String) : DebugEffect :=
  if debug = some ("print") then DebugEffect.printImage
  else if debug = some ("plot") then DebugEffect.plotImage
  else DebugEffect.noEffect

/-- The pixel window `[250:2000, 250:2250]` (rows 250-1999, columns 250-2249)
that `main` saves before each Gaussian-blur filtering pass and writes back
afterwards, in `(row, col)` coordinates. -/
def inPlantWindow (p : Point) : Bool :=
  decide (250 ≤ p.1 ∧ p.1 < 2000 ∧ 250 ≤ p.2 ∧ p.2 < 2250)

/-- The write-back `blur_thresholded[250:2000, 250:2250] = plant_region`:
inside the window the saved pixels win, elsewhere the filtered image is
kept. -/
def replacePlantRegion (filtered saved : Mask) : Mask :=
  fun p => if inPlantWindow p then saved p else filtered p

/-- One blur-and-rethreshold filtering pass of `main` (lines 119-137 on
`green_thresh`, lines 160-177 on `green_merged`): save the plant window of the
pre-blur mask (a NumPy view, identified here with the pre-blur mask restricted
to the window), Gaussian-blur, re-threshold, then write the saved window back.
`gaussianBlur` and `binaryThreshold` abstract the external PlantCV
primitives `pcv.gaussian_blur` and `pcv.binary_threshold`. -/
def blurFilterPass (pre : Mask) (gaussianBlur binaryThreshold : Mask → Mask) : Mask :=
  let plant_region := pre
  let blur_gaussian := gaussianBlur pre
  let blur_thresholded := binaryThreshold blur_gaussian
  replacePlantRegion blur_thresholded plant_region

/-- The externally observable steps of the tail of `main` (from the ROI
selection result onwards). -/
inductive PipelineAction
  | objectComposition
  | analyzeObjectVIS
  | analyzeColorVIS
  | writeResultRow
  | readNIR
  | analyzeNIRIntensity
  | analyzeObjectNIR
  | writeCoresultRow
  deriving DecidableEq

/-- Control-flow skeleton of `main` after `pcv.roi_objects` (source lines
233-238 and the body of the `if len(roi_contours) > 0` block): when at least
one contour was kept, the object compositor, the VIS shape and color
analyzers, the result-file writes (header + data row per metric block plus one
row per analyzer image row), the NIR lookup, the NIR analyzers and the
co-result writes all run in order; when no contour was kept nothing at all
runs and `main` returns normally.  `shapeImgRows`, `colorImgRows` and
`nirImgRows` are the lengths of the row lists the external analyzers
return. -/
def mainAfterRoiSelection (roi_contours : List Contour)
    (shapeImgRows colorImgRows nirImgRows : ℕ) : List PipelineAction :=
  if roi_contours.length > 0 then
    [PipelineAction.objectComposition, PipelineAction.analyzeObjectVIS,
      PipelineAction.analyzeColorVIS]
      ++ List.replicate (2 + shapeImgRows + 2 + colorImgRows) PipelineAction.writeResultRow
      ++ [PipelineAction.readNIR, PipelineAction.analyzeNIRIntensity,
        PipelineAction.analyzeObjectNIR]
      ++ List.replicate (2 + nirImgRows + 3) PipelineAction.writeCoresultRow
  else []

/-- Python 2 floor division and remainder by 2 recompose the dividend. -/
lemma fdiv_two_add_emod (a : ℤ) : 2 * a.fdiv 2 + a % 2 = a := by
  have h := Int.fdiv_add_fmod a 2
  have h2 : Int.fmod a 2 = a % 2 := by
    rw [Int.fmod_eq_emod]
    norm_num
  omega

/-- Pointwise description of the suppression loop: a pixel is 0 when some
flagged contour paints it, and otherwise keeps its input value. -/
lemma removeLoop_spec (pptest : Point → ℤ) (drawFill : ℕ → Point → Bool)
    (cs : List Contour) (n : ℕ) (m : Mask) (p : Point) :
    removeLoop pptest drawFill n cs m p =
      if blackenedAt pptest drawFill n cs p then 0 else m p := by
  induction cs generalizing n m with
  | nil => simp [removeLoop, blackenedAt]
  | cons c cs ih =>
      rw [removeLoop, ih]
      by_cases hf : contourFlagged pptest c
      · by_cases hd : drawFill n p
        · simp [blackenedAt, hf, hd, drawContoursBlack]
        · simp [blackenedAt, hf, hd, drawContoursBlack]
      · simp [blackenedAt, hf]

/-- The brass-stopper style ROI used for the concrete evaluations below: the
rectangle with corners `(0, 0)` and `(10, 10)`. -/
def roiRectTest : Point → ℤ := pptRect 0 0 10 10

/-- A concrete contour whose first vertex `(5, 5)` lies strictly inside
`roiRectTest` while its last vertex `(100, 100)` lies strictly outside it. -/
def contourLastOutside : Contour := [(5, 5), (100, 100)]

/-- A concrete painted region for `contourLastOutside`: the diagonal segment
between its two vertices, which is what `cv2.drawContours` paints for a
two-point contour with thickness -1. -/
def segFill : ℕ → Point → Bool :=
  fun _ p => decide (p.1 = p.2 ∧ 5 ≤ p.1 ∧ p.1 ≤ 100)

/-- An all-white input mask. -/
def maskAll255 : Mask := fun _ => 255

/-- C1: the claim says a contour with at least one vertex on the ROI boundary
or outside it is left untouched.  The code, contradicting its own comments
("This is the number of vertices in the contour", "all the contour vertices
are in the ROI"), never tests the last vertex: `contourLastOutside` has its
last vertex strictly outside the ROI (point-polygon test -1), yet
`remove_countors_roi` blackens it, turning the white pixel `(5, 5)` into 0. -/
theorem c1_last_vertex_outside_still_blackened :
    roiRectTest (100, 100) = -1 ∧
    maskAll255 (5, 5) = 255 ∧
    (remove_countors_roi maskAll255 [contourLastOutside] [] roiRectTest segFill
      0 none).2 (5, 5) = 0 := by
  decide

/-- C8: the point-in-polygon test list covers exactly the first
`len(contour) - 1` vertices, so (a) the tested vertices of `vs ++ [v]` are
exactly `vs`, (b) the suppression verdict never depends on the last vertex,
and (c) a one-vertex contour has an empty test list, passes the all-inside
check vacuously, and is blackened wherever its painted region reaches,
regardless of where the vertex lies relative to the ROI. -/
theorem c8_last_vertex_never_tested (pptest : Point → ℤ) (vs : List Point)
    (v vNew w : Point) (mask : Mask) (hierarchy : Hierarchy)
    (drawFill : ℕ → Point → Bool) (p : Point) (device : ℕ) (debug : Option String) :
    testedVertices (vs ++ [v]) = vs ∧
    contourFlagged pptest (vs ++ [v]) = contourFlagged pptest (vs ++ [vNew]) ∧
    contourFlagged pptest [w] = true ∧
    (remove_countors_roi mask [[w]] hierarchy pptest drawFill device debug).2 p =
      (if drawFill 0 p then 0 else mask p) := by
  have htake : testedVertices (vs ++ [v]) = vs := by
    simp [testedVertices]
  have htake2 : testedVertices (vs ++ [vNew]) = vs := by
    simp [testedVertices]
  refine ⟨htake, ?_, ?_, ?_⟩
  · simp [contourFlagged, contourTests, htake, htake2]
  · simp [contourFlagged, contourTests, testedVertices]
  · simp [remove_countors_roi, removeLoop, contourFlagged, contourTests,
      testedVertices, drawContoursBlack]

/-- C6: `remove_countors_roi` is pure in this model (it works on a copy of the
mask and builds every intermediate value freshly), and it is frame-preserving:
any pixel not painted by some flagged contour keeps its input value
exactly. -/
theorem c6_suppression_frame_preserving (mask : Mask) (contours : List Contour)
    (hierarchy : Hierarchy) (pptest : Point → ℤ) (drawFill : ℕ → Point → Bool)
    (device : ℕ) (debug : Option String) (p : Point)
    (hout : blackenedAt pptest drawFill 0 contours p = false) :
    (remove_countors_roi mask contours hierarchy pptest drawFill device debug).2 p
      = mask p := by
  simp [remove_countors_roi, removeLoop_spec, hout]

/-- Witness for C6 at a concrete input: one contour, a painted region that
misses the probed pixel. -/
theorem c6_suppression_frame_preserving_witness :
    blackenedAt (fun _ => 1) (fun _ q => decide (q = (0, 0))) 0 [[(0, 0), (1, 1)]]
      (3, 4) = false ∧
    (remove_countors_roi (fun _ => 255) [[(0, 0), (1, 1)]] [] (fun _ => 1)
      (fun _ q => decide (q = (0, 0))) 0 none).2 (3, 4) =
      (fun _ => 255 : Mask) (3, 4) :=
  ⟨by decide,
    c6_suppression_frame_preserving (fun _ => 255) [[(0, 0), (1, 1)]] [] (fun _ => 1)
      (fun _ q => decide (q = (0, 0))) 0 none (3, 4) (by decide)⟩

/-- C7: ROI suppression is idempotent: with the same contours, hierarchy, ROI
test and paint regions, re-applying `remove_countors_roi` to its own output
changes nothing (the same contour indices are flagged again, and repainting an
already-black region with 0 is the identity). -/
theorem c7_suppression_idempotent (mask : Mask) (contours : List Contour)
    (hierarchy : Hierarchy) (pptest : Point → ℤ) (drawFill : ℕ → Point → Bool)
    (device : ℕ) (debug : Option String) (p : Point) :
    (remove_countors_roi
        (remove_countors_roi mask contours hierarchy pptest drawFill device debug).2
        contours hierarchy pptest drawFill device debug).2 p =
      (remove_countors_roi mask contours hierarchy pptest drawFill device debug).2 p := by
  simp only [remove_countors_roi, removeLoop_spec]
  by_cases hb : blackenedAt pptest drawFill 0 contours p <;> simp [hb]

/-- C10: whatever the user passes for `--debug`, `options()` returns a debug
field that is either `None` or the string `print`, so the `debug == "plot"`
branch of the helpers is never selected when they are reached through
`main`. -/
theorem c10_debug_never_plot (debugArg : Option String) :
    (optionsDebug debugArg = none ∨ optionsDebug debugArg = some ("print")) ∧
    debugEffect (optionsDebug debugArg) ≠ DebugEffect.plotImage := by
  cases debugArg with
  | none => simp [optionsDebug, debugEffect]
  | some s => simp [optionsDebug, debugEffect]

/-- C9: in each blur-and-rethreshold filtering pass of `main`, every pixel of
the plant window `[250:2000, 250:2250]` of the stage output equals the
corresponding pixel of the pre-blur mask, for any semantics of the Gaussian
blur and of the re-threshold, because the saved window is written back after
thresholding. -/
theorem c9_plant_window_restored (pre : Mask) (gaussianBlur binaryThreshold : Mask → Mask)
    (p : Point) (hp : inPlantWindow p = true) :
    blurFilterPass pre gaussianBlur binaryThreshold p = pre p := by
  simp [blurFilterPass, replacePlantRegion, hp]

/-- Witness for C9: the pixel `(300, 300)` lies in the plant window, and a
pass whose blur and threshold erase everything still reproduces the pre-blur
value there. -/
theorem c9_plant_window_restored_witness :
    inPlantWindow (300, 300) = true ∧
    blurFilterPass (fun _ => 255) (fun _ => fun _ => 0) (fun _ => fun _ => 0) (300, 300) =
      (fun _ => 255 : Mask) (300, 300) :=
  ⟨by decide,
    c9_plant_window_restored (fun _ => 255) (fun _ => fun _ => 0) (fun _ => fun _ => 0)
      (300, 300) (by decide)⟩

/-- C4: when the plant-region ROI selection keeps zero contours, the tail of
`main` performs no action at all: the object compositor and the analyzers are
not invoked, no row is written to the result or co-result file, and the
function returns normally (the embedding is a total function). -/
theorem c4_no_plant_writes_nothing (roi_contours : List Contour)
    (shapeImgRows colorImgRows nirImgRows : ℕ) (hempty : roi_contours.length = 0) :
    mainAfterRoiSelection roi_contours shapeImgRows colorImgRows nirImgRows = [] := by
  simp [mainAfterRoiSelection, hempty]

/-- Witness for C4: the empty contour list produces the empty action trace. -/
theorem c4_no_plant_writes_nothing_witness :
    ([] : List Contour).length = 0 ∧
    mainAfterRoiSelection [] 3 4 5 = [] :=
  ⟨rfl, c4_no_plant_writes_nothing [] 3 4 5 rfl⟩

/-- C5: `conv_ratio` with its fixed default arguments is the constant pair
`(prop2, prop1) = ((508/2056)*1.125, (606/2454)*1.125)`, independent of any
per-image data (it is a closed term); and resizing a 2454-by-2056 VIS frame
(width 2454, height 2056, the reference resolution) by these constants, as
`main` does with `resize_x = prop1` and `resize_y = prop2`, produces
dimensions within one pixel of `height * prop1` and `width * prop2`. -/
theorem c5_conv_ratio_constant_pair :
    conv_ratio_defaults = (508 / 2056 * 1.125, 606 / 2454 * 1.125) ∧
    |((resizeDims 2056 2454 conv_ratio_defaults.2 conv_ratio_defaults.1).1 : ℚ) -
        2056 * conv_ratio_defaults.2| ≤ 1 ∧
    |((resizeDims 2056 2454 conv_ratio_defaults.2 conv_ratio_defaults.1).2 : ℚ) -
        2454 * conv_ratio_defaults.1| ≤ 1 := by
  refine ⟨by norm_num [conv_ratio_defaults, conv_ratio], ?_, ?_⟩
  · have h1 : (resizeDims 2056 2454 conv_ratio_defaults.2 conv_ratio_defaults.1).1 = 572 := by
      norm_num [resizeDims, conv_ratio_defaults, conv_ratio, Int.floor_eq_iff]
    rw [h1]
    norm_num [conv_ratio_defaults, conv_ratio]
    rw [abs_le]
    constructor <;> norm_num
  · have h2 : (resizeDims 2056 2454 conv_ratio_defaults.2 conv_ratio_defaults.1).2 = 682 := by
      norm_num [resizeDims, conv_ratio_defaults, conv_ratio, Int.floor_eq_iff]
    rw [h2]
    norm_num [conv_ratio_defaults, conv_ratio]
    rw [abs_le]
    constructor <;> norm_num

/-- The slice extent produced by `crop_sides_equally` on one axis equals the
NIR extent whenever the difference is nonnegative. -/
lemma sliceLen_nonneg (h N : ℕ) (hle : (N : ℤ) ≤ (h : ℤ)) :
    pySliceIdx ((h : ℤ) - (if ((h : ℤ) - N) % 2 = 0 then ((h : ℤ) - N).fdiv 2
        else ((h : ℤ) - N).fdiv 2 + 1)) h
      - pySliceIdx (((h : ℤ) - N).fdiv 2) h = N := by
  have hd := fdiv_two_add_emod ((h : ℤ) - N)
  generalize hq : ((h : ℤ) - N).fdiv 2 = q at *
  unfold pySliceIdx
  split_ifs <;> omega

/-- The slice extent produced by `crop_sides_equally` on one axis never equals
the NIR extent when the mask is strictly smaller on that axis. -/
lemma sliceLen_neg (h N : ℕ) (hlt : (h : ℤ) < (N : ℤ)) :
    pySliceIdx ((h : ℤ) - (if ((h : ℤ) - N) % 2 = 0 then ((h : ℤ) - N).fdiv 2
        else ((h : ℤ) - N).fdiv 2 + 1)) h
      - pySliceIdx (((h : ℤ) - N).fdiv 2) h ≠ N := by
  have hd := fdiv_two_add_emod ((h : ℤ) - N)
  generalize hq : ((h : ℤ) - N).fdiv 2 = q at *
  unfold pySliceIdx
  split_ifs <;> omega

/-- With nonnegative difference the slice start on one axis is exactly the
floored half difference. -/
lemma sliceStart_nonneg (h N : ℕ) (hle : (N : ℤ) ≤ (h : ℤ)) :
    (pySliceIdx (((h : ℤ) - N).fdiv 2) h : ℤ) = ((h : ℤ) - N).fdiv 2 := by
  have hd := fdiv_two_add_emod ((h : ℤ) - N)
  generalize hq : ((h : ℤ) - N).fdiv 2 = q at *
  unfold pySliceIdx
  split_ifs <;> omega

/-- Unfolding of `crop_sides_equally` to the slice it takes: the leading bound
on each axis is the floored half difference (the parity test assigns the same
value in both branches), the trailing bound adds one more removed pixel when
the difference is odd. -/
lemma crop_sides_equally_eq (mask nir : PyImg) (device : ℕ) (debug : Option String) :
    crop_sides_equally mask nir device debug =
      (device + 1,
        pySlice2 mask (((mask.h : ℤ) - nir.h).fdiv 2)
          ((mask.h : ℤ) - (if ((mask.h : ℤ) - nir.h) % 2 = 0 then ((mask.h : ℤ) - nir.h).fdiv 2
            else ((mask.h : ℤ) - nir.h).fdiv 2 + 1))
          (((mask.w : ℤ) - nir.w).fdiv 2)
          ((mask.w : ℤ) - (if ((mask.w : ℤ) - nir.w) % 2 = 0 then ((mask.w : ℤ) - nir.w).fdiv 2
            else ((mask.w : ℤ) - nir.w).fdiv 2 + 1))) := by
  simp [crop_sides_equally]

/-- C2: with nonnegative per-axis difference `d = mask_dim - nir_dim`, the
crop has exactly the NIR dimensions; pixel `(r, c)` of the crop comes from
`(r + d_y / 2, c + d_x / 2)` of the mask, so the leading edge (top/left) loses
exactly `d / 2` (floored) pixels; and the trailing edge loses the remaining
`d - d / 2` pixels, which is `d / 2` when `d` is even and `d / 2 + 1` (the
extra pixel) when `d` is odd. -/
theorem c2_crop_sides_equally_exact (mask nir : PyImg) (device : ℕ)
    (debug : Option String) (hy : (nir.h : ℤ) ≤ (mask.h : ℤ))
    (hx : (nir.w : ℤ) ≤ (mask.w : ℤ)) :
    (crop_sides_equally mask nir device debug).2.h = nir.h ∧
    (crop_sides_equally mask nir device debug).2.w = nir.w ∧
    (∀ r c : ℤ, (crop_sides_equally mask nir device debug).2.pix (r, c) =
      mask.pix (r + ((mask.h : ℤ) - nir.h).fdiv 2, c + ((mask.w : ℤ) - nir.w).fdiv 2)) ∧
    ((mask.h : ℤ) - nir.h) - ((mask.h : ℤ) - nir.h).fdiv 2 =
      ((mask.h : ℤ) - nir.h).fdiv 2 + (if ((mask.h : ℤ) - nir.h) % 2 = 0 then 0 else 1) ∧
    ((mask.w : ℤ) - nir.w) - ((mask.w : ℤ) - nir.w).fdiv 2 =
      ((mask.w : ℤ) - nir.w).fdiv 2 + (if ((mask.w : ℤ) - nir.w) % 2 = 0 then 0 else 1) := by
  rw [crop_sides_equally_eq]
  simp only [pySlice2]
  refine ⟨sliceLen_nonneg mask.h nir.h hy, sliceLen_nonneg mask.w nir.w hx, ?_, ?_, ?_⟩
  · intro r c
    rw [sliceStart_nonneg mask.h nir.h hy, sliceStart_nonneg mask.w nir.w hx]
  · have hd := fdiv_two_add_emod ((mask.h : ℤ) - nir.h)
    split_ifs <;> omega
  · have hd := fdiv_two_add_emod ((mask.w : ℤ) - nir.w)
    split_ifs <;> omega

/-- A concrete 101-by-100 resized mask and a 100-by-96 NIR frame: difference 1
(odd) on the row axis and 4 (even) on the column axis, the spec's two
worked examples. -/
def maskC2 : PyImg := ⟨101, 100, fun _ => 255⟩

/-- The NIR frame paired with `maskC2`. -/
def nirC2 : PyImg := ⟨100, 96, fun _ => 0⟩

/-- Witness for C2 at the spec's worked examples. -/
theorem c2_crop_sides_equally_exact_witness :
    ((nirC2.h : ℤ) ≤ (maskC2.h : ℤ) ∧ (nirC2.w : ℤ) ≤ (maskC2.w : ℤ)) ∧
    (crop_sides_equally maskC2 nirC2 0 none).2.h = nirC2.h ∧
    (crop_sides_equally maskC2 nirC2 0 none).2.w = nirC2.w := by
  have h := c2_crop_sides_equally_exact maskC2 nirC2 0 none (by decide) (by decide)
  exact ⟨⟨by decide, by decide⟩, h.1, h.2.1⟩

/-- A concrete 100-by-100 mask strictly smaller than its NIR frame on the row
axis. -/
def maskC3 : PyImg := ⟨100, 100, fun _ => 255⟩

/-- A 101-by-100 NIR frame, one row taller than `maskC3`. -/
def nirC3 : PyImg := ⟨101, 100, fun _ => 0⟩

/-- C3 counterexample: the source has no `AlignmentError` (nor any other
failure path); with a mask one row shorter than the NIR frame it silently
returns a crop — Python floor division gives slice start -1, which NumPy wraps
to row 99, so the returned crop has height 1, not the NIR height 101. -/
theorem c3_counterexample_returns_crop :
    (maskC3.h : ℤ) - (nirC3.h : ℤ) < 0 ∧
    (crop_sides_equally maskC3 nirC3 0 none).2.h = 1 ∧
    (crop_sides_equally maskC3 nirC3 0 none).2.h ≠ nirC3.h := by
  decide

/-- C3 amended: when the mask is strictly smaller than the NIR frame on some
axis, `crop_sides_equally` raises nothing (it is a total function of its
inputs); it returns a crop, and that crop never has the NIR dimensions. -/
theorem c3_amended_wrong_dims_no_error (mask nir : PyImg) (device : ℕ)
    (debug : Option String)
    (hneg : (mask.h : ℤ) < (nir.h : ℤ) ∨ (mask.w : ℤ) < (nir.w : ℤ)) :
    ¬ ((crop_sides_equally mask nir device debug).2.h = nir.h ∧
        (crop_sides_equally mask nir device debug).2.w = nir.w) := by
  rw [crop_sides_equally_eq]
  simp only [pySlice2]
  rintro ⟨h1, h2⟩
  cases hneg with
  | inl hlt => exact sliceLen_neg mask.h nir.h hlt h1
  | inr hlt => exact sliceLen_neg mask.w nir.w hlt h2

/-- Witness for the amended C3 at the concrete undersized mask. -/
theorem c3_amended_wrong_dims_no_error_witness :
    ((maskC3.h : ℤ) < (nirC3.h : ℤ) ∨ (maskC3.w : ℤ) < (nirC3.w : ℤ)) ∧
    ¬ ((crop_sides_equally maskC3 nirC3 0 none).2.h = nirC3.h ∧
        (crop_sides_equally maskC3 nirC3 0 none).2.w = nirC3.w) :=
  ⟨Or.inl (by decide),
    c3_amended_wrong_dims_no_error maskC3 nirC3 0 none (Or.inl (by decide))⟩
